import Mathlib

/-!
Verification of the Bean-Bot chat backend (`src/server.py`).

The program is a single-file FastAPI service.  Its core logic — message
classification, consent-gated fact memory, reply orchestration with an
LLM backend and a deterministic rule-based fallback — is embedded here
shallowly.  Python strings are modelled as `List Char` (`Str`), so that
`strip`, `lower`, substring tests (`"yes" in low`), slicing (`[:300]`,
`split(":", 1)[1]`) become list operations; the sqlite database is a
record of three relations (`convos`, `memory`, `consent`) mirroring the
tables created in `db()`; the OpenAI call is an oracle parameter of type
`LLMRequest → Except Str Str` (`Except.error` is a raised exception's
message, `Except.ok` the completion text), and the presence of
`OPENAI_API_KEY` is the oracle being `some`.
-/

/-- Python strings, modelled as lists of characters. -/
abbrev Str := List Char

/-- The whitespace characters removed by Python's `str.strip()`. -/
def isSpaceB (c : Char) : Bool :=
  c == ' ' || c == '\t' || c == '\n' || c == '\r' || c == '\x0b' || c == '\x0c'

/-- `s.strip()`: drop whitespace from both ends. -/
def pyStrip (l : Str) : Str :=
  List.rdropWhile isSpaceB (l.dropWhile isSpaceB)

/-- `s.lower()`, character-wise. -/
def pyLower (l : Str) : Str := l.map Char.toLower

/-- `p in l`: contiguous-substring test (Python's `in` on strings). -/
def containsSub (p : Str) : Str → Bool
  | [] => p.isPrefixOf []
  | c :: xs => p.isPrefixOf (c :: xs) || containsSub p xs

/-- `s.split(":", 1)[1]`: everything after the first colon (callers in
`chat` only use it on messages guaranteed to contain a colon). -/
def afterFirstColon (l : Str) : Str :=
  (l.dropWhile (fun c => !(c == ':'))).drop 1

/-- `name.split(' ')[0]`: the segment before the first space. -/
def firstSpaceToken (l : Str) : Str :=
  l.takeWhile (fun c => !(c == ' '))

/-- One row of the `convos` table, as inserted by `chat`
(`ts, agent_key, agent_name, object_key, region, message`). -/
structure Turn where
  ts : Int
  agent_key : Str
  agent_name : Str
  object_key : Str
  region : Str
  message : Str
deriving DecidableEq

/-- The sqlite database of `server.py`: tables `convos`, `memory`
(unique `(agent_key, fact)` pairs, kept in insertion order) and
`consent` (`agent_key` primary key). -/
structure DB where
  convos : List Turn
  memory : List (Str × Str)
  consent : List (Str × Bool)
deriving DecidableEq

/-- A freshly created database: all three tables empty. -/
def emptyDB : DB := ⟨[], [], []⟩

/-- The request body accepted by `POST /chat` (pydantic `Payload`). -/
structure Payload where
  agent_key : Str
  agent_name : Str
  message : Str
  object_name : Str
  object_key : Str
  position : Str
  region : Str
  timestamp : Int
deriving DecidableEq

/-- `get_mem`: `SELECT fact FROM memory WHERE agent_key=?`. -/
def get_mem (db : DB) (agent_key : Str) : List Str :=
  (db.memory.filter (fun e => decide (e.1 = agent_key))).map (fun e => e.2)

/-- `INSERT OR REPLACE` into a table keyed by its first component. -/
def upsertConsent : List (Str × Bool) → Str → Bool → List (Str × Bool)
  | [], k, b => [(k, b)]
  | e :: rest, k, b => if e.1 = k then (k, b) :: rest else e :: upsertConsent rest k b

/-- `set_consent`: upsert the speaker's consent flag. -/
def set_consent (db : DB) (agent_key : Str) (allowed : Bool) : DB :=
  { db with consent := upsertConsent db.consent agent_key allowed }

/-- Lookup in the consent table (primary key, so first match suffices). -/
def lookupConsent : List (Str × Bool) → Str → Bool
  | [], _ => false
  | e :: rest, k => if e.1 = k then e.2 else lookupConsent rest k

/-- `get_consent`: the stored flag, falsy when no row exists. -/
def get_consent (db : DB) (agent_key : Str) : Bool :=
  lookupConsent db.consent agent_key

/-- `add_fact`: `INSERT OR IGNORE INTO memory VALUES (agent_key, fact.strip())`
under the `UNIQUE(agent_key, fact)` constraint. -/
def add_fact (db : DB) (agent_key fact : Str) : DB :=
  if (agent_key, pyStrip fact) ∈ db.memory then db
  else { db with memory := db.memory ++ [(agent_key, pyStrip fact)] }

/-- `remove_fact`: `DELETE FROM memory WHERE agent_key=? AND fact=?`
with the fact argument stripped. -/
def remove_fact (db : DB) (agent_key fact : Str) : DB :=
  { db with memory := db.memory.filter (fun e => decide (e ≠ (agent_key, pyStrip fact))) }

/-- `rule_based_reply`: the deterministic fallback reply table. -/
def rule_based_reply (name msg : Str) (mem : List Str) : Str :=
  let low := pyStrip (pyLower msg)
  if low = "hi".data ∨ low = "hello".data ∨ low = "hey".data ∨ low = "yo".data ∨ low = "sup".data then
    "hey ".data ++ (if name = [] then "there".data else firstSpaceToken name) ++ "! how’s it going?".data
  else if containsSub "how are you".data low then
    "i'm doing pretty well—appreciate you asking!".data
  else if containsSub "who are you".data low then
    "i'm your friendly in-world bot. try 'help' for tricks.".data
  else if containsSub "help".data low then
    "i can chat, and store/forget facts: 'remember: i like oolong tea' or 'forget: i like oolong tea'. toggle learning with 'consent: yes/no'.".data
  else if containsSub "remember:".data low then
    "got it—i saved that. (say 'forget: ...' to remove it)".data
  else if containsSub "forget:".data low then
    "ok, scrubbed from memory.".data
  else if containsSub "bye".data low || containsSub "goodnight".data low || containsSub "good night".data low then
    "catch you later!".data
  else if mem ≠ [] then
    ("noted. btw i remember: ".data ++ List.intercalate ", ".data (mem.take 3)).take 300
  else
    "ok! tell me more?".data

/-- The chat-completion request `llm_reply` sends: the system
instruction and the single user turn. -/
structure LLMRequest where
  system : Str
  user : Str
deriving DecidableEq

/-- The fixed part of the system instruction in `llm_reply`. -/
def llm_base_system : Str :=
  ("You are a friendly in-world NPC living in Second Life.\n" ++
   "Keep replies short (<= 2 sentences) and ask occasional follow-ups.\n" ++
   "Respect consent: only use 'memory' if the user opted in.\n").data

/-- The system instruction of `llm_reply`: facts are appended only when
`consent_ok and mem`, and only `mem[:10]` of them. -/
def llm_system (mem : List Str) (consent_ok : Bool) : Str :=
  if consent_ok = true ∧ mem ≠ [] then
    llm_base_system ++ "Known preferences for this user: ".data ++
      List.intercalate "; ".data (mem.take 10) ++ "\n".data
  else llm_base_system

/-- The full request `llm_reply` builds (user turn `f"{agent_name}: {msg}"`). -/
def llm_request (agent_name msg : Str) (mem : List Str) (consent_ok : Bool) : LLMRequest :=
  ⟨llm_system mem consent_ok, agent_name ++ ": ".data ++ msg⟩

/-- The generation backend as an oracle: `Except.ok` is the completion's
message content, `Except.error` the message of a raised exception. -/
abbrev Backend := LLMRequest → Except Str Str

/-- What one `POST /chat` request produces: the reply string, the
database afterwards, and whether the OpenAI backend was invoked. -/
structure ChatResult where
  reply : Str
  db : DB
  llmInvoked : Bool

/-- The unconditional `INSERT INTO convos` at the top of `chat`
(`now` models `int(time.time())`). -/
def logTurn (now : Int) (p : Payload) (db : DB) : DB :=
  { db with convos := db.convos ++ [⟨now, p.agent_key, p.agent_name, p.object_key, p.region, p.message⟩] }

/-- The `chat` handler: log the turn, classify the message by prefix
(first match wins), execute commands, otherwise try the backend when
configured and surface its failure text, or use the rule-based reply. -/
def chat (backend : Option Backend) (now : Int) (p : Payload) (db0 : DB) : ChatResult :=
  let db := logTurn now p db0
  let msg := pyStrip p.message
  let low := pyLower msg
  if "consent:".data.isPrefixOf low then
    ⟨"thanks! learning is now ".data ++
        (if containsSub "yes".data low then "ON.".data else "OFF.".data),
      set_consent db p.agent_key (containsSub "yes".data low), false⟩
  else if "remember:".data.isPrefixOf low then
    ⟨"saved: '".data ++ pyStrip (afterFirstColon msg) ++ "'".data,
      add_fact db p.agent_key (pyStrip (afterFirstColon msg)), false⟩
  else if "forget:".data.isPrefixOf low then
    ⟨"forgot: '".data ++ pyStrip (afterFirstColon msg) ++ "'".data,
      remove_fact db p.agent_key (pyStrip (afterFirstColon msg)), false⟩
  else
    match backend with
    | some call =>
      match call (llm_request p.agent_name msg (get_mem db p.agent_key) (get_consent db p.agent_key)) with
      | Except.ok text => ⟨pyStrip text ++ " [llm]".data, db, true⟩
      | Except.error e => ⟨"(fallback) LLM error: ".data ++ e, db, true⟩
    | none => ⟨rule_based_reply p.agent_name msg (get_mem db p.agent_key), db, false⟩

/-- A batch of requests handled in order (each with its wall-clock time). -/
def processAll (backend : Option Backend) : List (Int × Payload) → DB → DB
  | [], db => db
  | (now, p) :: rest, db => processAll backend rest (chat backend now p db).db

theorem add_fact_convos (db : DB) (k f : Str) : (add_fact db k f).convos = db.convos := by
  unfold add_fact
  split <;> rfl

theorem add_fact_consent (db : DB) (k f : Str) : (add_fact db k f).consent = db.consent := by
  unfold add_fact
  split <;> rfl

theorem remove_fact_convos (db : DB) (k f : Str) : (remove_fact db k f).convos = db.convos := rfl

theorem remove_fact_consent (db : DB) (k f : Str) : (remove_fact db k f).consent = db.consent := rfl

theorem set_consent_convos (db : DB) (k : Str) (a : Bool) : (set_consent db k a).convos = db.convos := rfl

theorem set_consent_memory (db : DB) (k : Str) (a : Bool) : (set_consent db k a).memory = db.memory := rfl

theorem chat_convos (b : Option Backend) (now : Int) (p : Payload) (db : DB) :
    (chat b now p db).db.convos
      = db.convos ++ [⟨now, p.agent_key, p.agent_name, p.object_key, p.region, p.message⟩] := by
  unfold chat
  dsimp only
  split
  · simp [set_consent_convos, logTurn]
  · split
    · simp [add_fact_convos, logTurn]
    · split
      · simp [remove_fact_convos, logTurn]
      · cases b with
        | none => simp [logTurn]
        | some call =>
          dsimp only
          split <;> simp [logTurn]

theorem processAll_convos_length (b : Option Backend) (reqs : List (Int × Payload)) (db : DB) :
    (processAll b reqs db).convos.length = db.convos.length + reqs.length := by
  induction reqs generalizing db with
  | nil => simp [processAll]
  | cons e rest ih =>
    obtain ⟨now, p⟩ := e
    rw [processAll, ih, chat_convos]
    simp
    omega

/-- C2: every inbound request appends exactly one entry to the Turn Log
(`convos`), unconditionally and before any command or generation logic —
the post-log database of `chat` is the input database with exactly the
logged turn appended, in every branch, and a batch of N requests grows
the log by exactly N rows. -/
theorem chat_turn_log_invariant :
    (∀ (b : Option Backend) (now : Int) (p : Payload) (db : DB),
        (chat b now p db).db.convos
          = db.convos ++ [⟨now, p.agent_key, p.agent_name, p.object_key, p.region, p.message⟩]) ∧
    (∀ (b : Option Backend) (reqs : List (Int × Payload)) (db : DB),
        (processAll b reqs db).convos.length = db.convos.length + reqs.length) :=
  ⟨chat_convos, processAll_convos_length⟩

theorem lookupConsent_upsert_self (cs : List (Str × Bool)) (k : Str) (a : Bool) :
    lookupConsent (upsertConsent cs k a) k = a := by
  induction cs with
  | nil => simp [upsertConsent, lookupConsent]
  | cons e rest ih =>
    by_cases h : e.1 = k
    · simp [upsertConsent, lookupConsent, h]
    · simp [upsertConsent, lookupConsent, h, ih]

theorem lookupConsent_upsert_ne (cs : List (Str × Bool)) (k' k : Str) (a : Bool) (h : k' ≠ k) :
    lookupConsent (upsertConsent cs k' a) k = lookupConsent cs k := by
  induction cs with
  | nil => simp [upsertConsent, lookupConsent, h]
  | cons e rest ih =>
    by_cases he : e.1 = k'
    · simp [upsertConsent, lookupConsent, he, h]
    · simp only [upsertConsent, he, if_false, lookupConsent, ih]

theorem get_consent_chat_of_no_consent_cmd (b : Option Backend) (now : Int) (p : Payload)
    (db : DB) (k : Str)
    (h : p.agent_key = k → "consent:".data.isPrefixOf (pyLower (pyStrip p.message)) = false) :
    get_consent (chat b now p db).db k = get_consent db k := by
  unfold chat
  dsimp only
  split
  · next hc =>
    have hk : p.agent_key ≠ k := by
      intro he
      rw [h he] at hc
      exact Bool.false_ne_true hc
    simp [set_consent, get_consent, logTurn, lookupConsent_upsert_ne _ _ _ _ hk]
  · split
    · simp [get_consent, add_fact_consent, logTurn]
    · split
      · simp [get_consent, remove_fact_consent, logTurn]
      · cases b with
        | none => simp [get_consent, logTurn]
        | some call =>
          dsimp only
          split <;> simp [get_consent, logTurn]

theorem consent_absent_aux (b : Option Backend) (k : Str) :
    ∀ (reqs : List (Int × Payload)) (db : DB),
      (∀ e ∈ reqs, e.2.agent_key = k →
          "consent:".data.isPrefixOf (pyLower (pyStrip e.2.message)) = false) →
      get_consent db k = false →
      get_consent (processAll b reqs db) k = false := by
  intro reqs
  induction reqs with
  | nil => intro db _ hdb; exact hdb
  | cons e rest ih =>
    intro db h hdb
    obtain ⟨now, p⟩ := e
    rw [processAll]
    refine ih _ (fun e he => h e (List.mem_cons_of_mem _ he)) ?_
    rw [get_consent_chat_of_no_consent_cmd _ _ _ _ _ (h (now, p) (List.mem_cons_self _ _))]
    exact hdb

/-- C3: a speaker for whom no consent command was ever processed (and so
no `set_consent` was ever performed) gets `get_consent = false`: absence
of a consent row is never read as opt-in. -/
theorem consent_absent_is_false (b : Option Backend) (reqs : List (Int × Payload)) (k : Str)
    (h : ∀ e ∈ reqs, e.2.agent_key = k →
        "consent:".data.isPrefixOf (pyLower (pyStrip e.2.message)) = false) :
    get_consent (processAll b reqs emptyDB) k = false :=
  consent_absent_aux b k reqs emptyDB h rfl

/-- C3 witness: two concrete requests — the speaker's own non-consent
message and another speaker's consent opt-in — still leave the first
speaker's consent flag false. -/
theorem consent_absent_is_false_witness :
    get_consent (processAll none
      [(1, ⟨"alice".data, "Alice".data, "remember: likes tea".data, "o".data, "ok".data, "p".data, "r".data, 1⟩),
       (2, ⟨"bob".data, "Bob".data, "consent: yes".data, "o".data, "ok".data, "p".data, "r".data, 2⟩)]
      emptyDB) "alice".data = false :=
  consent_absent_is_false none _ "alice".data (by decide)

theorem pyStrip_dropWhile_eq_self (l : Str) :
    (pyStrip l).dropWhile isSpaceB = pyStrip l := by
  rcases hm : pyStrip l with _ | ⟨c, t⟩
  · rfl
  · have hpre : pyStrip l <+: l.dropWhile isSpaceB := List.rdropWhile_prefix _ _
    rw [hm] at hpre
    obtain ⟨s, hs⟩ := hpre
    have hidem : List.dropWhile isSpaceB (List.dropWhile isSpaceB l)
        = List.dropWhile isSpaceB l := List.dropWhile_idempotent _ _
    rw [← hs] at hidem
    simp only [List.cons_append] at hidem
    have hc : isSpaceB c = false := by
      by_contra hcc
      rw [Bool.not_eq_false] at hcc
      rw [List.dropWhile_cons_of_pos hcc] at hidem
      have hle : (List.dropWhile isSpaceB (t ++ s)).length ≤ (t ++ s).length :=
        (List.dropWhile_suffix _).length_le
      rw [hidem] at hle
      simp at hle
    simp [List.dropWhile_cons, hc]

theorem pyStrip_idem (l : Str) : pyStrip (pyStrip l) = pyStrip l := by
  conv_lhs => rw [pyStrip, pyStrip_dropWhile_eq_self]
  rw [pyStrip, List.rdropWhile_idempotent]

theorem mem_add_fact (db : DB) (k f : Str) : (k, pyStrip f) ∈ (add_fact db k f).memory := by
  unfold add_fact
  split
  · assumption
  · simp

theorem add_fact_of_mem (db : DB) (k f : Str) (h : (k, pyStrip f) ∈ db.memory) :
    add_fact db k f = db := by
  unfold add_fact
  rw [if_pos h]

theorem add_fact_idem (db : DB) (k f : Str) :
    add_fact (add_fact db k f) k f = add_fact db k f :=
  add_fact_of_mem _ k f (mem_add_fact db k f)

theorem add_fact_nodup (db : DB) (k f : Str) (h : db.memory.Nodup) :
    (add_fact db k f).memory.Nodup := by
  unfold add_fact
  split
  · exact h
  · next hnot =>
    rw [← List.concat_eq_append]
    exact List.Nodup.concat hnot h

theorem length_filter_eq_one_of_nodup_mem {α : Type} [DecidableEq α] {l : List α} {a : α}
    (hnd : l.Nodup) (ha : a ∈ l) :
    (l.filter (fun e => decide (e = a))).length = 1 := by
  induction l with
  | nil => cases ha
  | cons x xs ih =>
    rcases List.nodup_cons.mp hnd with ⟨hx, hxs⟩
    rcases List.mem_cons.mp ha with rfl | hmem
    · have hnil : xs.filter (fun e => decide (e = a)) = [] :=
        List.filter_eq_nil_iff.mpr (fun b hb => by
          simp only [decide_eq_true_eq]
          rintro rfl
          exact hx hb)
      simp [List.filter_cons, hnil]
    · have hxa : x ≠ a := fun he => hx (he ▸ hmem)
      simp only [List.filter_cons, decide_eq_true_eq]
      rw [if_neg (by simpa using hxa)]
      exact ih hxs hmem

/-- C5: `add_fact` is idempotent and keeps the `(speaker, fact)` pair
unique: after an add the stripped fact is stored exactly once, a repeat
add changes nothing, and the length of the speaker's fact list is
unaffected by the repeat. -/
theorem add_fact_idempotent_unique (db : DB) (k f : Str) (hnd : db.memory.Nodup) :
    add_fact (add_fact db k f) k f = add_fact db k f ∧
    ((add_fact db k f).memory.filter (fun e => decide (e = (k, pyStrip f)))).length = 1 ∧
    (get_mem (add_fact (add_fact db k f) k f) k).length
      = (get_mem (add_fact db k f) k).length := by
  refine ⟨add_fact_idem db k f, ?_, by rw [add_fact_idem]⟩
  exact length_filter_eq_one_of_nodup_mem (add_fact_nodup db k f hnd) (mem_add_fact db k f)

/-- C5 witness: adding the fact `" tea "` twice for one speaker on the
fresh database, instantiating the theorem. -/
theorem add_fact_idempotent_unique_witness :
    add_fact (add_fact emptyDB "k".data " tea ".data) "k".data " tea ".data
      = add_fact emptyDB "k".data " tea ".data ∧
    ((add_fact emptyDB "k".data " tea ".data).memory.filter
        (fun e => decide (e = ("k".data, pyStrip " tea ".data)))).length = 1 ∧
    (get_mem (add_fact (add_fact emptyDB "k".data " tea ".data) "k".data " tea ".data) "k".data).length
      = (get_mem (add_fact emptyDB "k".data " tea ".data) "k".data).length :=
  add_fact_idempotent_unique emptyDB "k".data " tea ".data (by decide)

theorem not_mem_get_mem_remove_add (db : DB) (k f : Str) :
    pyStrip f ∉ get_mem (remove_fact (add_fact db k f) k f) k := by
  simp only [get_mem, remove_fact, List.mem_map, List.mem_filter, decide_eq_true_eq]
  rintro ⟨e, ⟨⟨_, hne⟩, hk⟩, hv⟩
  exact hne (Prod.ext hk hv)

theorem remove_fact_not_mem (db : DB) (k f : Str) (h : (k, pyStrip f) ∉ db.memory) :
    remove_fact db k f = db := by
  have heq : db.memory.filter (fun e => decide (e ≠ (k, pyStrip f))) = db.memory :=
    List.filter_eq_self.mpr (fun a ha => by
      simp only [decide_eq_true_eq]
      rintro rfl
      exact h ha)
  unfold remove_fact
  rw [heq]

theorem remove_fact_frame (db : DB) (k f : Str) :
    ∀ e ∈ db.memory, e ≠ (k, pyStrip f) → e ∈ (remove_fact db k f).memory := by
  intro e he hne
  simp only [remove_fact, List.mem_filter, decide_eq_true_eq]
  exact ⟨he, hne⟩

/-- C6: `remove_fact` after `add_fact` of the same fact leaves the
stored (stripped) fact absent from the speaker's list; removing a fact
that is not stored is a no-op raising no error; and a removal never
touches any other stored pair. -/
theorem remove_fact_semantics (db : DB) (k f : Str) :
    pyStrip f ∉ get_mem (remove_fact (add_fact db k f) k f) k ∧
    ((k, pyStrip f) ∉ db.memory → remove_fact db k f = db) ∧
    (∀ e ∈ db.memory, e ≠ (k, pyStrip f) → e ∈ (remove_fact db k f).memory) :=
  ⟨not_mem_get_mem_remove_add db k f, remove_fact_not_mem db k f, remove_fact_frame db k f⟩

/-- C6 witness: removing `"tea"` after adding it on the fresh database,
removing from the empty database as a no-op, and another speaker's pair
surviving a removal. -/
theorem remove_fact_semantics_witness :
    pyStrip "tea".data ∉ get_mem (remove_fact (add_fact emptyDB "k".data "tea".data) "k".data "tea".data) "k".data ∧
    remove_fact emptyDB "k".data "tea".data = emptyDB ∧
    ("j".data, "a".data) ∈ (remove_fact ⟨[], [("j".data, "a".data)], []⟩ "k".data "tea".data).memory :=
  ⟨(remove_fact_semantics emptyDB "k".data "tea".data).1,
   (remove_fact_semantics emptyDB "k".data "tea".data).2.1 (by decide),
   (remove_fact_semantics ⟨[], [("j".data, "a".data)], []⟩ "k".data "tea".data).2.2
     ("j".data, "a".data) (by decide) (by decide)⟩

theorem add_fact_congr (db : DB) (k : Str) {f g : Str} (h : pyStrip f = pyStrip g) :
    add_fact db k f = add_fact db k g := by
  unfold add_fact
  rw [h]

theorem remove_fact_congr (db : DB) (k : Str) {f g : Str} (h : pyStrip f = pyStrip g) :
    remove_fact db k f = remove_fact db k g := by
  unfold remove_fact
  rw [h]

/-- C10: Fact Memory normalizes surrounding whitespace: `add_fact` and
`remove_fact` strip their fact argument, so arguments equal modulo
surrounding whitespace behave identically, every fact the add stores is
already stripped (a second strip is the identity), and a forget whose
argument differs from the stored fact only in surrounding whitespace
still removes it. -/
theorem fact_memory_strips_whitespace (db : DB) (k f g : Str) (hfg : pyStrip f = pyStrip g) :
    add_fact db k f = add_fact db k g ∧
    remove_fact db k f = remove_fact db k g ∧
    (∀ e ∈ (add_fact db k f).memory, e ∈ db.memory ∨ e.2 = pyStrip e.2) ∧
    pyStrip f ∉ get_mem (remove_fact (add_fact db k f) k g) k := by
  refine ⟨add_fact_congr db k hfg, remove_fact_congr db k hfg, ?_, ?_⟩
  · intro e he
    unfold add_fact at he
    split at he
    · exact Or.inl he
    · rcases List.mem_append.mp he with hin | hnew
      · exact Or.inl hin
      · right
        simp only [List.mem_singleton] at hnew
        rw [hnew]
        exact (pyStrip_idem f).symm
  · rw [← remove_fact_congr (add_fact db k f) k hfg]
    exact not_mem_get_mem_remove_add db k f

/-- C10 witness: `"  tea  "` and `"tea"` act identically on the fresh
database, the stored fact is stripped, and forgetting `"tea"` removes
the fact added as `"  tea  "`. -/
theorem fact_memory_strips_whitespace_witness :
    add_fact emptyDB "k".data "  tea  ".data = add_fact emptyDB "k".data "tea".data ∧
    remove_fact emptyDB "k".data "  tea  ".data = remove_fact emptyDB "k".data "tea".data ∧
    (∀ e ∈ (add_fact emptyDB "k".data "  tea  ".data).memory,
        e ∈ emptyDB.memory ∨ e.2 = pyStrip e.2) ∧
    pyStrip "  tea  ".data ∉
      get_mem (remove_fact (add_fact emptyDB "k".data "  tea  ".data) "k".data "tea".data) "k".data :=
  fact_memory_strips_whitespace emptyDB "k".data "  tea  ".data "tea".data (by decide)

/-- C4: the generation request gates stored facts on consent: with
consent false the request is identical to the one built from an empty
fact list (so no stored fact text enters it anywhere), with consent
true and non-empty facts the system instruction is the fixed persona
instruction plus at most 10 facts, and with no facts it is the fixed
instruction alone. -/
theorem llm_request_consent_gating (name msg : Str) (mem : List Str) :
    llm_request name msg mem false = llm_request name msg [] false ∧
    llm_system mem false = llm_base_system ∧
    (mem ≠ [] →
      llm_system mem true
          = llm_base_system ++ "Known preferences for this user: ".data
              ++ List.intercalate "; ".data (mem.take 10) ++ "\n".data ∧
      (mem.take 10).length ≤ 10) ∧
    llm_system [] true = llm_base_system := by
  refine ⟨?_, ?_, fun hne => ⟨?_, ?_⟩, ?_⟩
  · unfold llm_request llm_system
    simp
  · unfold llm_system
    simp
  · unfold llm_system
    rw [if_pos ⟨rfl, hne⟩]
  · rw [List.length_take]
    exact min_le_left _ _
  · unfold llm_system
    simp

/-- C4 witness: with consent off the request for a speaker with the
stored fact "likes tea" equals the factless request; with consent on
the instruction carries the (at most 10) facts. -/
theorem llm_request_consent_gating_witness :
    llm_request "Ada".data "hi there".data ["likes tea".data] false
        = llm_request "Ada".data "hi there".data [] false ∧
    llm_system ["likes tea".data] true
        = llm_base_system ++ "Known preferences for this user: ".data
            ++ List.intercalate "; ".data (["likes tea".data].take 10) ++ "\n".data ∧
    (["likes tea".data].take 10).length ≤ 10 :=
  ⟨(llm_request_consent_gating "Ada".data "hi there".data ["likes tea".data]).1,
   ((llm_request_consent_gating "Ada".data "hi there".data ["likes tea".data]).2.2.1
      (by decide)).1,
   ((llm_request_consent_gating "Ada".data "hi there".data ["likes tea".data]).2.2.1
      (by decide)).2⟩

/-- C7: classification is by prefix in the fixed order consent, remember,
forget, plain, first match winning: "consent: remember: yes" is handled
as a consent command (consent set to true, no fact stored, reply is the
consent acknowledgment), and no message classified as a command ever
invokes the generation backend. -/
theorem classifier_priority_short_circuit :
    (∀ (b : Option Backend) (now : Int) (key name oname okey pos reg : Str) (ts : Int) (db : DB),
        (chat b now ⟨key, name, "consent: remember: yes".data, oname, okey, pos, reg, ts⟩ db).reply
            = "thanks! learning is now ON.".data ∧
        (chat b now ⟨key, name, "consent: remember: yes".data, oname, okey, pos, reg, ts⟩ db).db.memory
            = db.memory ∧
        get_consent (chat b now ⟨key, name, "consent: remember: yes".data, oname, okey, pos, reg, ts⟩ db).db key
            = true ∧
        (chat b now ⟨key, name, "consent: remember: yes".data, oname, okey, pos, reg, ts⟩ db).llmInvoked
            = false) ∧
    (∀ (b : Option Backend) (now : Int) (p : Payload) (db : DB),
        ("consent:".data.isPrefixOf (pyLower (pyStrip p.message)) = true
          ∨ "remember:".data.isPrefixOf (pyLower (pyStrip p.message)) = true
          ∨ "forget:".data.isPrefixOf (pyLower (pyStrip p.message)) = true) →
        (chat b now p db).llmInvoked = false) := by
  constructor
  · intro b now key name oname okey pos reg ts db
    have h1 : "consent:".data.isPrefixOf (pyLower (pyStrip "consent: remember: yes".data)) = true := by
      decide
    have h2 : containsSub "yes".data (pyLower (pyStrip "consent: remember: yes".data)) = true := by
      decide
    refine ⟨?_, ?_, ?_, ?_⟩ <;>
      simp [chat, h1, h2, set_consent, set_consent_memory, get_consent, logTurn,
        lookupConsent_upsert_self]
  · intro b now p db h
    simp only [chat]
    split
    · rfl
    · next hc1 =>
      split
      · rfl
      · next hc2 =>
        split
        · rfl
        · next hc3 =>
          rcases h with h | h | h
          · exact absurd h hc1
          · exact absurd h hc2
          · exact absurd h hc3

/-- C7 witness: a forget command with a configured backend still leaves
the backend uninvoked. -/
theorem classifier_priority_short_circuit_witness :
    (chat (some (fun _ => Except.ok "hi".data)) 7
        ⟨"k".data, "N".data, "forget: tea".data, "o".data, "ok".data, "p".data, "r".data, 7⟩
        emptyDB).llmInvoked = false :=
  classifier_priority_short_circuit.2 (some (fun _ => Except.ok "hi".data)) 7
    ⟨"k".data, "N".data, "forget: tea".data, "o".data, "ok".data, "p".data, "r".data, 7⟩
    emptyDB (Or.inr (Or.inr (by decide)))

theorem containsSub_cons_ne (p : Str) (hp : p ≠ []) (c : Char) (l : Str)
    (hne : p.head hp ≠ c) : containsSub p (c :: l) = containsSub p l := by
  cases p with
  | nil => exact absurd rfl hp
  | cons a as =>
    have hac : (a == c) = false := by
      simp only [List.head] at hne
      simp [hne]
    simp [containsSub, List.isPrefixOf, hac]

theorem containsSub_yes_after_consent (rest : Str) :
    containsSub "yes".data ("consent:".data ++ rest) = containsSub "yes".data rest := by
  show containsSub "yes".data ('c' :: 'o' :: 'n' :: 's' :: 'e' :: 'n' :: 't' :: ':' :: rest)
      = containsSub "yes".data rest
  rw [containsSub_cons_ne "yes".data (by decide) 'c' _ (by decide),
      containsSub_cons_ne "yes".data (by decide) 'o' _ (by decide),
      containsSub_cons_ne "yes".data (by decide) 'n' _ (by decide),
      containsSub_cons_ne "yes".data (by decide) 's' _ (by decide),
      containsSub_cons_ne "yes".data (by decide) 'e' _ (by decide),
      containsSub_cons_ne "yes".data (by decide) 'n' _ (by decide),
      containsSub_cons_ne "yes".data (by decide) 't' _ (by decide),
      containsSub_cons_ne "yes".data (by decide) ':' _ (by decide)]

/-- C8: for a message whose lower-cased trimmed form starts with
"consent:", the stored consent value is exactly whether the remainder
after the 8-character prefix contains "yes" (the check is on the
lower-cased text, hence case-insensitive; an occurrence of "yes" cannot
straddle the prefix boundary, so the whole-string test in the code
coincides with the remainder test), and the reply acknowledges ON or
OFF accordingly. -/
theorem consent_command_yes_iff (b : Option Backend) (now : Int) (p : Payload) (db : DB)
    (h : "consent:".data.isPrefixOf (pyLower (pyStrip p.message)) = true) :
    get_consent (chat b now p db).db p.agent_key
        = containsSub "yes".data ((pyLower (pyStrip p.message)).drop 8) ∧
    (chat b now p db).reply
        = (if containsSub "yes".data ((pyLower (pyStrip p.message)).drop 8)
           then "thanks! learning is now ON.".data
           else "thanks! learning is now OFF.".data) := by
  obtain ⟨rest, hrest⟩ := List.isPrefixOf_iff_prefix.mp h
  have hdrop : (pyLower (pyStrip p.message)).drop 8 = rest := by
    rw [← hrest]
    exact List.drop_left' (by decide)
  have hcs : containsSub "yes".data (pyLower (pyStrip p.message))
      = containsSub "yes".data ((pyLower (pyStrip p.message)).drop 8) := by
    rw [hdrop, ← hrest, containsSub_yes_after_consent]
  simp only [chat, h, if_true]
  constructor
  · rw [get_consent, set_consent, lookupConsent_upsert_self, hcs]
  · rw [← hcs]
    cases containsSub "yes".data (pyLower (pyStrip p.message)) <;> decide

/-- C8 witness: the mixed-case message "Consent: oh YES please" turns
consent on, and the acknowledgment names the ON state. -/
theorem consent_command_yes_iff_witness :
    get_consent (chat none 3
        ⟨"k".data, "N".data, "Consent: oh YES please".data, "o".data, "ok".data, "p".data, "r".data, 3⟩
        emptyDB).db "k".data
      = containsSub "yes".data ((pyLower (pyStrip "Consent: oh YES please".data)).drop 8) ∧
    (chat none 3
        ⟨"k".data, "N".data, "Consent: oh YES please".data, "o".data, "ok".data, "p".data, "r".data, 3⟩
        emptyDB).reply
      = (if containsSub "yes".data ((pyLower (pyStrip "Consent: oh YES please".data)).drop 8)
         then "thanks! learning is now ON.".data
         else "thanks! learning is now OFF.".data) :=
  consent_command_yes_iff none 3
    ⟨"k".data, "N".data, "Consent: oh YES please".data, "o".data, "ok".data, "p".data, "r".data, 3⟩
    emptyDB (by decide)

/-- C9: when the lower-cased trimmed message matches none of the special
patterns and the known-fact list is non-empty, the fallback reply is the
fixed fact-naming text truncated to 300 characters, naming at most 3 of
the known facts joined by ", ", and the reply length is at most 300. -/
theorem rule_based_reply_memory_branch (name msg : Str) (mem : List Str)
    (h1 : ¬(pyStrip (pyLower msg) = "hi".data ∨ pyStrip (pyLower msg) = "hello".data
        ∨ pyStrip (pyLower msg) = "hey".data ∨ pyStrip (pyLower msg) = "yo".data
        ∨ pyStrip (pyLower msg) = "sup".data))
    (h2 : containsSub "how are you".data (pyStrip (pyLower msg)) = false)
    (h3 : containsSub "who are you".data (pyStrip (pyLower msg)) = false)
    (h4 : containsSub "help".data (pyStrip (pyLower msg)) = false)
    (h5 : containsSub "remember:".data (pyStrip (pyLower msg)) = false)
    (h6 : containsSub "forget:".data (pyStrip (pyLower msg)) = false)
    (h7 : containsSub "bye".data (pyStrip (pyLower msg)) = false)
    (h8 : containsSub "goodnight".data (pyStrip (pyLower msg)) = false)
    (h9 : containsSub "good night".data (pyStrip (pyLower msg)) = false)
    (hm : mem ≠ []) :
    rule_based_reply name msg mem
        = ("noted. btw i remember: ".data ++ List.intercalate ", ".data (mem.take 3)).take 300 ∧
    (rule_based_reply name msg mem).length ≤ 300 ∧
    (mem.take 3).length ≤ 3 ∧
    (∀ f ∈ mem.take 3, f ∈ mem) := by
  have hr : rule_based_reply name msg mem
      = ("noted. btw i remember: ".data ++ List.intercalate ", ".data (mem.take 3)).take 300 := by
    simp only [rule_based_reply]
    rw [if_neg h1, if_neg (by simp [h2]), if_neg (by simp [h3]), if_neg (by simp [h4]),
        if_neg (by simp [h5]), if_neg (by simp [h6]), if_neg (by simp [h7, h8, h9]),
        if_pos hm]
  refine ⟨hr, ?_, ?_, fun f hf => List.take_subset _ _ hf⟩
  · rw [hr, List.length_take]
    exact min_le_left _ _
  · rw [List.length_take]
    exact min_le_left _ _

/-- C9 witness: the spec's own example — three stored facts and the
message "ok cool", which matches no special pattern. -/
theorem rule_based_reply_memory_branch_witness :
    rule_based_reply "Ada".data "ok cool".data
        ["likes tea".data, "owns a cat".data, "plays guitar".data]
      = ("noted. btw i remember: ".data ++ List.intercalate ", ".data
          (["likes tea".data, "owns a cat".data, "plays guitar".data].take 3)).take 300 ∧
    (rule_based_reply "Ada".data "ok cool".data
        ["likes tea".data, "owns a cat".data, "plays guitar".data]).length ≤ 300 ∧
    ((["likes tea".data, "owns a cat".data, "plays guitar".data] : List Str).take 3).length ≤ 3 ∧
    (∀ f ∈ (["likes tea".data, "owns a cat".data, "plays guitar".data] : List Str).take 3,
        f ∈ (["likes tea".data, "owns a cat".data, "plays guitar".data] : List Str)) :=
  rule_based_reply_memory_branch "Ada".data "ok cool".data
    ["likes tea".data, "owns a cat".data, "plays guitar".data]
    (by decide) (by decide) (by decide) (by decide) (by decide) (by decide) (by decide)
    (by decide) (by decide) (by decide)

/-- C1: the claim fails on the code — the failing input is a plain
message with a configured backend whose call fails: the reply is only
the fallback marker plus the raw error text; the deterministic fallback
generator (whose output here would be "ok! tell me more?") is never
invoked, although the code's own comment says "fall back to rules on
any error" and the spec requires its output in the reply. -/
theorem llm_failure_reply_lacks_fallback_output :
    (chat (some (fun _ => Except.error "boom".data)) 5
        ⟨"k1".data, "Ada".data, "ok cool".data, "o".data, "ok".data, "p".data, "r".data, 0⟩
        emptyDB).reply = "(fallback) LLM error: boom".data ∧
    rule_based_reply "Ada".data (pyStrip "ok cool".data)
        (get_mem (logTurn 5
            ⟨"k1".data, "Ada".data, "ok cool".data, "o".data, "ok".data, "p".data, "r".data, 0⟩
            emptyDB) "k1".data)
      = "ok! tell me more?".data ∧
    containsSub "ok! tell me more?".data
        (chat (some (fun _ => Except.error "boom".data)) 5
          ⟨"k1".data, "Ada".data, "ok cool".data, "o".data, "ok".data, "p".data, "r".data, 0⟩
          emptyDB).reply = false := by
  refine ⟨rfl, by decide, by decide⟩
